import Mathlib

/-!
Shallow embedding of the adaptive recommendation engine of the kairos
repository (contextual-bandit focus/break duration recommender), together
with proofs checking the specification's claims against it.

Conventions of the embedding:
* JavaScript numbers are embedded as `ℚ` (all arithmetic in the engine is
  rational: sums, means, EWMA with weight 0.7, linear-regression slopes).
  The single genuinely real-valued operation, `Math.pow` with a real
  exponent inside `sampleBeta`, is embedded separately over `ℝ`.
* JavaScript objects used as string-keyed maps are embedded as insertion
  ordered association lists (`List (String × α)`); the per-context action
  map, whose keys are the integer minute values, is embedded as a list of
  `ℕ × ModelParameters` kept in ascending key order, matching the
  ascending enumeration order of integer-like keys in JS objects.
* `AsyncStorage` persistence is embedded by passing the three state maps
  (model / zones / capacity) explicitly and returning the updated maps;
  the storage layer's error fallback (treat as empty state) never fires in
  the embedding.
* `Math.random()` draws are passed in explicitly: `u` is the uniform draw
  used for early-exploration arm choice, and `sampleFn i α β` stands for
  the Thompson sample of `Beta(α, β)` for the i-th candidate action (in
  the source it is `sampleBeta(α, β)` applied to two fresh uniform draws;
  see `sampleBeta` below for that function itself).
* `console.log`, timestamps (`Date.now()`) and the session database are
  irrelevant to the computed values and are omitted.
-/

namespace Kairos

/-- Energy levels; the empty string member of the TS union is `unset`. -/
inductive EnergyLevel where
  | low
  | mid
  | high
  | unset
deriving DecidableEq, Repr

/-- The string form used when building context keys (template literals). -/
def EnergyLevel.toKey : EnergyLevel → String
  | .low => "low"
  | .mid => "mid"
  | .high => "high"
  | .unset => ""

/-- Focus zones (src/services/rl/types.ts). -/
inductive FocusZone where
  | short
  | long
  | extended
deriving DecidableEq, Repr

/-- Capacity trend (src/services/rl/types.ts). -/
inductive Trend where
  | growing
  | stable
  | declining
deriving DecidableEq, Repr

/-- Source labels of a recommendation (getSmartRecommendation). -/
inductive Source where
  | heuristic
  | learned
  | blended
  | capacity
deriving DecidableEq, Repr

/-- Beta-distribution parameters per (context, action). -/
structure ModelParameters where
  alpha : ℚ
  beta : ℚ
deriving DecidableEq, Repr

/-- Per-context action map, ascending integer keys (JS object key order for
integer-like keys). -/
abbrev ContextModel := List (ℕ × ModelParameters)

/-- The persisted bandit model: context key to per-action parameters. -/
abbrev ModelState := List (String × ContextModel)

/-- One recorded session in the capacity window (timestamp omitted: it is
written by the code but never read). -/
structure SessionRecord where
  selectedDuration : ℚ
  actualFocusTime : ℚ
  completed : Bool
deriving DecidableEq, Repr

/-- Capacity statistics per context (src/services/rl/types.ts). -/
structure CapacityStats where
  recentSessions : List SessionRecord
  averageCapacity : ℚ
  completionRate : ℚ
  trend : Trend
deriving DecidableEq, Repr

/-- The persisted capacity map. -/
abbrev CapacityState := List (String × CapacityStats)

/-- Zone data per context (src/services/rl/types.ts). -/
structure ZoneData where
  zone : FocusZone
  confidence : ℚ
  selections : List ℚ
  transitionReady : Bool
deriving DecidableEq, Repr

/-- The persisted zone map. -/
abbrev ZoneState := List (String × ZoneData)

/-- Context scoping all learning (src/services/rl/types.ts). -/
structure Context where
  taskType : String
  energyLevel : EnergyLevel
deriving DecidableEq, Repr

/-- src/utils/contextKey.ts `createContextKey`. -/
def createContextKey (context : Context) : String :=
  context.taskType ++ "|" ++ context.energyLevel.toKey

/-- Lookup in a string-keyed JS object embedded as an association list. -/
def lookupKey {α : Type} (m : List (String × α)) (k : String) : Option α :=
  match m with
  | [] => Option.none
  | (k0, v0) :: rest => if k0 = k then some v0 else lookupKey rest k

/-- Assignment `obj[k] = v` on a string-keyed JS object: replace in place,
or append a fresh key at the end (JS insertion order). -/
def setKey {α : Type} (m : List (String × α)) (k : String) (v : α) :
    List (String × α) :=
  match m with
  | [] => [(k, v)]
  | (k0, v0) :: rest =>
    if k0 = k then (k0, v) :: rest else (k0, v0) :: setKey rest k v

/-- Lookup in the per-context action map. -/
def lookupAction (cm : ContextModel) (a : ℕ) : Option ModelParameters :=
  match cm with
  | [] => Option.none
  | (a0, p0) :: rest => if a0 = a then some p0 else lookupAction rest a

/-- Assignment on the per-context action map, keeping keys ascending
(integer-like JS object keys enumerate in ascending order). -/
def setAction (cm : ContextModel) (a : ℕ) (p : ModelParameters) :
    ContextModel :=
  match cm with
  | [] => [(a, p)]
  | (a0, p0) :: rest =>
    if a0 = a then (a0, p) :: rest
    else if a < a0 then (a, p) :: (a0, p0) :: rest
    else (a0, p0) :: setAction rest a p

-- ===========================================================================
-- Constants (src/services/rl/types.ts)
-- ===========================================================================

def DEFAULT_ALPHA : ℚ := 1
def DEFAULT_BETA : ℚ := 3/2
def EARLY_EXPLORATION_THRESHOLD : ℚ := 2
def BOOTSTRAP_THRESHOLD : ℚ := 5
def EWMA_ALPHA : ℚ := 7/10
def CAPACITY_HISTORY_LIMIT : ℕ := 10
def SPILLOVER_THRESHOLD : ℚ := 7/10
def SPILLOVER_FACTOR : ℚ := 1/4

/-- Zone action tables (src/services/rl/types.ts `ZONE_ACTIONS`). -/
def ZONE_ACTIONS : FocusZone → List ℕ
  | .short => [10, 15, 20, 25, 30]
  | .long => [25, 30, 35, 40, 45, 50, 55, 60]
  | .extended => [50, 60, 70, 80, 90, 105, 120]

def BREAK_ACTIONS : List ℕ := [5, 10, 15, 20, 25, 30]

-- ===========================================================================
-- Zone manager (src/services/rl/zones.ts)
-- ===========================================================================

/-- `detectZone(selection, energyLevel)`. -/
def detectZone (selection : ℚ) (energyLevel : EnergyLevel) : FocusZone :=
  if selection ≤ 25 then .short
  else if 70 ≤ selection then .extended
  else if 30 ≤ selection then .long
  else if energyLevel = .low then .short else .long

/-- Insert into an ascending list (helper for the numeric sort). -/
def insertAsc (a : ℕ) : List ℕ → List ℕ
  | [] => [a]
  | b :: rest => if a ≤ b then a :: b :: rest else b :: insertAsc a rest

/-- Ascending numeric sort, the effect of `.sort((a, b) => a - b)`. -/
def sortAsc : List ℕ → List ℕ
  | [] => []
  | a :: rest => insertAsc a (sortAsc rest)

/-- First-occurrence de-duplication, the effect of `new Set([...])`. -/
def dedupFirst (seen : List ℕ) : List ℕ → List ℕ
  | [] => []
  | a :: rest =>
    if a ∈ seen then dedupFirst seen rest
    else a :: dedupFirst (a :: seen) rest

/-- `getZoneActions(zone, dynamicArms)`: sorted de-duplicated union of the
zone's fixed table and the user's custom durations. -/
def getZoneActions (zone : FocusZone) (dynamicArms : List ℕ) : List ℕ :=
  sortAsc (dedupFirst [] (ZONE_ACTIONS zone ++ dynamicArms))

/-- Average of the last five selections (the `slice(-5)` average inside
`checkZoneTransition`). -/
def lastFiveAverage (selections : List ℚ) : ℚ :=
  let recent := selections.drop (selections.length - 5)
  recent.foldl (· + ·) 0 / (recent.length : ℚ)

/-- `checkZoneTransition(zoneData)`. -/
def checkZoneTransition (zoneData : ZoneData) : FocusZone :=
  if zoneData.selections.length < 5 then zoneData.zone
  else
    let avgRecent := lastFiveAverage zoneData.selections
    if zoneData.zone = .short ∧ 30 ≤ avgRecent then .long
    else if zoneData.zone = .long ∧ avgRecent ≤ 25 then .short
    else if zoneData.zone = .long ∧ 55 ≤ avgRecent then .extended
    else if zoneData.zone = .extended ∧ avgRecent ≤ 55 then .long
    else zoneData.zone

/-- `getZoneData(contextKey, energyLevel, heuristicDuration)`: returns the
stored zone data, lazily seeding a fresh context from `detectZone` (and
persisting the seed); the returned state is the possibly-extended map. -/
def getZoneData (zones : ZoneState) (contextKey : String)
    (energyLevel : EnergyLevel) (heuristicDuration : ℚ) :
    ZoneData × ZoneState :=
  match lookupKey zones contextKey with
  | some zd => (zd, zones)
  | Option.none =>
    let zd : ZoneData := ⟨detectZone heuristicDuration energyLevel, 0, [], false⟩
    (zd, setKey zones contextKey zd)

/-- `updateZoneData(contextKey, selectedDuration)`: seeds an unseen context
with the inline thresholds (≤30 short, ≥50 extended, else long), appends
the selection, trims to 10, recomputes confidence and re-checks the
transition. -/
def updateZoneData (zones : ZoneState) (contextKey : String)
    (selectedDuration : ℚ) : ZoneState :=
  let zd0 :=
    match lookupKey zones contextKey with
    | some zd => zd
    | Option.none =>
      ⟨if selectedDuration ≤ 30 then FocusZone.short
        else if 50 ≤ selectedDuration then FocusZone.extended
        else FocusZone.long, 0, [], false⟩
  let sel1 := zd0.selections ++ [selectedDuration]
  let sel2 := if 10 < sel1.length then sel1.drop (sel1.length - 10) else sel1
  let zd1 : ZoneData :=
    { zd0 with
        selections := sel2
        confidence := min 1 ((sel2.length : ℚ) / 5) }
  let newZone := checkZoneTransition zd1
  let zd2 :=
    if newZone ≠ zd1.zone then
      { zd1 with zone := newZone, transitionReady := false }
    else zd1
  setKey zones contextKey zd2

-- ===========================================================================
-- Capacity tracker (src/services/rl/capacity.ts)
-- ===========================================================================

/-- Empty capacity statistics, the default returned for an unseen context. -/
def emptyCapacityStats : CapacityStats := ⟨[], 0, 0, .stable⟩

/-- Sum of `i * y i` over a list, with indices starting at `i0` — the
`reduce((sum, y, x) => sum + x * y, 0)` in `calculateTrend`. -/
def weightedIndexSum (i0 : ℕ) : List ℚ → ℚ
  | [] => 0
  | y :: rest => (i0 : ℚ) * y + weightedIndexSum (i0 + 1) rest

/-- `calculateTrend(sessions)`: linear-regression slope over the
actual/selected ratios of the last five sessions. (In ℚ a zero
`selectedDuration` yields ratio 0 where JS yields a non-finite number; the
engine records only positive selected durations.) -/
def calculateTrend (sessions : List SessionRecord) : Trend :=
  if sessions.length < 3 then .stable
  else
    let recent := sessions.drop (sessions.length - 5)
    let rs := recent.map (fun s => s.actualFocusTime / s.selectedDuration)
    let n : ℚ := (rs.length : ℚ)
    let sumX := n * (n - 1) / 2
    let sumY := rs.foldl (· + ·) 0
    let sumXY := weightedIndexSum 0 rs
    let sumXX := n * (n - 1) * (2 * n - 1) / 6
    let slope := (n * sumXY - sumX * sumY) / (n * sumXX - sumX * sumX)
    if 1/20 < slope then .growing
    else if slope < -(1/20) then .declining
    else .stable

/-- `getCapacityStats(contextKey)`: stored stats or the empty default. -/
def getCapacityStats (capacity : CapacityState) (contextKey : String) :
    CapacityStats :=
  (lookupKey capacity contextKey).getD emptyCapacityStats

/-- `updateCapacityStats(contextKey, selectedDuration, actualFocusTime,
completed)`: append, trim to 10, recompute average / completion rate /
trend. -/
def updateCapacityStats (capacity : CapacityState) (contextKey : String)
    (selectedDuration actualFocusTime : ℚ) (completed : Bool) :
    CapacityState :=
  let stats0 := (lookupKey capacity contextKey).getD emptyCapacityStats
  let sessions1 := stats0.recentSessions ++ [⟨selectedDuration, actualFocusTime, completed⟩]
  let sessions2 :=
    if CAPACITY_HISTORY_LIMIT < sessions1.length then
      sessions1.drop (sessions1.length - CAPACITY_HISTORY_LIMIT)
    else sessions1
  let totalFocusTime := (sessions2.map (fun s => s.actualFocusTime)).foldl (· + ·) 0
  let completedCount := (sessions2.filter (fun s => s.completed)).length
  let stats1 : CapacityStats :=
    ⟨sessions2,
      totalFocusTime / (sessions2.length : ℚ),
      (completedCount : ℚ) / (sessions2.length : ℚ),
      calculateTrend sessions2⟩
  setKey capacity contextKey stats1

/-- Modelled from the spec: `roundToNearest5` from `@/utils/time` (the file
is not part of the provided sources; the spec calls it "round5", rounding
to the nearest multiple of five, i.e. `Math.round(x / 5) * 5`). -/
def roundToNearest5 (x : ℚ) : ℚ := ((5 * round (x / 5) : ℤ) : ℚ)

/-- `adjustForCapacity(modelRec, stats, energyLevel)`. -/
def adjustForCapacity (modelRec : ℚ) (stats : CapacityStats)
    (energyLevel : EnergyLevel) : ℚ :=
  if stats.recentSessions.length < 3 then modelRec
  else if stats.completionRate < 1/2 then
    max 10 (roundToNearest5 stats.averageCapacity)
  else if energyLevel = .low then modelRec
  else
    let stretchThreshold : ℚ := if energyLevel = .high then 85/100 else 95/100
    if stretchThreshold ≤ stats.completionRate ∧
        (stats.trend = .stable ∨ stats.trend = .growing) then
      modelRec + 5
    else modelRec

-- ===========================================================================
-- Reward pipeline (src/services/recommendations.ts)
-- ===========================================================================

/-- Skip reasons passed to `calculateReward` (the string union
"skippedFocus" | "skippedBreak" | "none"). -/
inductive SkipReason where
  | skippedFocus
  | skippedBreak
  | none
deriving DecidableEq, Repr

/-- `calculateReward(...)`: tiered base plus acceptance bonus, excess
duration penalty, clamped to [0, 1]. -/
def calculateReward (sessionCompleted acceptedRecommendation : Bool)
    (focusedUntilSkipped userSelectedDuration recommendedDuration : ℚ)
    (skipReason : SkipReason) : ℚ :=
  let targetDuration :=
    if acceptedRecommendation then recommendedDuration else userSelectedDuration
  let focusFrac := min 1 (focusedUntilSkipped / targetDuration)
  let bonus : ℚ := if acceptedRecommendation then 15/100 else 0
  let reward :=
    match skipReason with
    | .skippedFocus => (4/10 : ℚ) * focusFrac + bonus
    | .skippedBreak => (3/10 : ℚ) + (3/10 : ℚ) * focusFrac + bonus
    | .none =>
      if sessionCompleted then (7/10 : ℚ) + (3/10 : ℚ) * focusFrac + bonus
      else 0
  let reward1 :=
    if 90 < targetDuration then
      reward - (1/10 : ℚ) * min 1 ((targetDuration - 90) / 90)
    else reward
  min 1 (max 0 reward1)

/-- `applyCapacityScaling(baseReward, completedDuration, averageCapacity)`. -/
def applyCapacityScaling (baseReward completedDuration averageCapacity : ℚ) : ℚ :=
  if averageCapacity ≤ 0 then baseReward
  else
    let frac := completedDuration / averageCapacity
    if frac ≤ 7/10 then max 0 (baseReward * (85/100))
    else if 115/100 ≤ frac then min 1 (baseReward * (11/10))
    else baseReward

-- ===========================================================================
-- Bandit model (src/services/rl/sampling.ts)
-- ===========================================================================

/-- `getTotalObservations(model, contextKey)`: evidence sum over the
context's actions, net of the pseudo-count prior. -/
def getTotalObservations (model : ModelState) (contextKey : String) : ℚ :=
  match lookupKey model contextKey with
  | Option.none => 0
  | some cm =>
    cm.foldl (fun s e => s + e.2.alpha + e.2.beta - DEFAULT_ALPHA - DEFAULT_BETA) 0

/-- Parameters of an action, defaulting to the pessimistic prior — the
`model[contextKey][action] || { alpha: DEFAULT_ALPHA, beta: DEFAULT_BETA }`
pattern. -/
def actionParams (cm : ContextModel) (a : ℕ) : ModelParameters :=
  (lookupAction cm a).getD ⟨DEFAULT_ALPHA, DEFAULT_BETA⟩

/-- The initialization loop of `getBestAction`: ensure the context exists
and every candidate action has default parameters. (The source saves only
when something was added; the final state is the same either way.) -/
def ensureActionParams (model : ModelState) (contextKey : String)
    (actions : List ℕ) : ModelState :=
  let cm := (lookupKey model contextKey).getD []
  let cm1 := actions.foldl
    (fun m a =>
      if (lookupAction m a).isSome then m
      else setAction m a ⟨DEFAULT_ALPHA, DEFAULT_BETA⟩)
    cm
  setKey model contextKey cm1

/-- Tail of the Thompson pick: JS sorts the samples descending with a
stable sort and takes the first element, i.e. the first action whose
sample is maximal; later actions replace the leader only on a strictly
greater sample. -/
def pickBySampleAux (sampleFn : ℕ → ℚ → ℚ → ℚ) (cm : ContextModel) :
    List ℕ → ℕ → ℕ → ℚ → ℕ
  | [], _, best, _ => best
  | a :: rest, i, best, bestVal =>
    let p := actionParams cm a
    let v := sampleFn i p.alpha p.beta
    if bestVal < v then pickBySampleAux sampleFn cm rest (i + 1) a v
    else pickBySampleAux sampleFn cm rest (i + 1) best bestVal

/-- The Thompson-sampling pick over a candidate list. The empty-list value
is arbitrary: JS would read `samples[0]` of an empty array, and every call
site passes a non-empty list. -/
def pickBySample (sampleFn : ℕ → ℚ → ℚ → ℚ) (cm : ContextModel) :
    List ℕ → ℕ
  | [] => 0
  | a :: rest =>
    let p := actionParams cm a
    pickBySampleAux sampleFn cm rest 1 a (sampleFn 0 p.alpha p.beta)

/-- `getBestAction(context, actions, dynamicArms)`. `u` is the
`Math.random()` draw of the early-exploration branch and `sampleFn` the
per-action Thompson samples. Returns the chosen action and the updated
model and zone maps. -/
def getBestAction (sampleFn : ℕ → ℚ → ℚ → ℚ) (u : ℚ) (context : Context)
    (actions dynamicArms : List ℕ) (model : ModelState) (zones : ZoneState) :
    ℕ × ModelState × ZoneState :=
  let contextKey := createContextKey context
  let zres := getZoneData zones contextKey context.energyLevel 25
  let availableActions := getZoneActions zres.1.zone dynamicArms
  let actionsToUse := if actions = [] then availableActions else actions
  let model1 := ensureActionParams model contextKey actionsToUse
  let totalTries := getTotalObservations model1 contextKey
  if totalTries < EARLY_EXPLORATION_THRESHOLD then
    (actionsToUse.getD (⌊u * (actionsToUse.length : ℚ)⌋).toNat 0, model1, zres.2)
  else
    let cm := (lookupKey model1 contextKey).getD []
    (pickBySample sampleFn cm actionsToUse, model1, zres.2)

/-- `updateModel(context, action, reward)`. A `Option.none` reward embeds a
JS `NaN` (the `isNaN(reward)` guard skips it, exactly as a reward of 0 is
skipped). -/
def updateModel (model : ModelState) (context : Context) (action : ℕ)
    (reward : Option ℚ) : ModelState :=
  match reward with
  | Option.none => model
  | some r =>
    if r = 0 then model
    else
      let contextKey := createContextKey context
      let cm := (lookupKey model contextKey).getD []
      let p := actionParams cm action
      let successWeight := max 0 (min 1 r)
      let failureWeight := max 0 (1 - successWeight)
      let multiplier : ℚ := if 7/10 < r then 3/2 else 1
      setKey model contextKey
        (setAction cm action
          ⟨p.alpha + successWeight * multiplier,
            p.beta + failureWeight * multiplier⟩)

/-- `penalizeRejection(context, rejectedAction)`: synthetic update with
reward −0.3. -/
def penalizeRejection (model : ModelState) (context : Context)
    (rejectedAction : ℕ) : ModelState :=
  updateModel model context rejectedAction (some (-(3/10)))

-- ===========================================================================
-- Recommendation orchestrator (src/services/rl/index.ts,
-- getSmartRecommendation)
-- ===========================================================================

/-- A recommendation: value in minutes plus its source label. -/
structure RecOutput where
  value : ℚ
  source : Source
deriving DecidableEq, Repr

/-- `Math.min(...actions)` over the non-empty action lists of the engine
(JS would give Infinity on an empty list; unreachable here). -/
def listMin : List ℕ → ℚ
  | [] => 0
  | a :: rest => rest.foldl (fun m b => min m (b : ℚ)) (a : ℚ)

/-- `Math.max(...actions)`, same remark as `listMin`. -/
def listMax : List ℕ → ℚ
  | [] => 0
  | a :: rest => rest.foldl (fun m b => max m (b : ℚ)) (a : ℚ)

/-- The EWMA over recent selected durations used by the bootstrap phase
(weight `EWMA_ALPHA` on each newer point). -/
def bootstrapEwma : List SessionRecord → ℚ
  | [] => 0
  | s :: rest =>
    rest.foldl
      (fun e r => EWMA_ALPHA * r.selectedDuration + (1 - EWMA_ALPHA) * e)
      s.selectedDuration

/-- Result of the model-recommendation step of `getSmartRecommendation`:
the pre-adjustment recommendation, the bootstrap flag, the action list in
force after any automatic zone switch, and the updated state maps. -/
structure StepResult where
  modelRec : ℚ
  isBootstrap : Bool
  actions : List ℕ
  model : ModelState
  zones : ZoneState
deriving Repr

/-- The cold-start / bootstrap / Thompson-takeover branch of
`getSmartRecommendation` (its lines computing `modelRec`, `isBootstrap`
and the possible automatic zone switch). `zone0` is the zone after the
short-sessions override, `zones1` the zone map after `getZoneData`. The
source recomputes `actions` only when the zone switches; without a switch
the kept list already equals `getZoneActions zone0 dynamicArms`, so the
action list is `getZoneActions zoneFinal dynamicArms` in both cases. -/
def recommendStep (sampleFn : ℕ → ℚ → ℚ → ℚ) (u : ℚ) (context : Context)
    (heuristicRecommendation : ℚ) (dynamicArms : List ℕ)
    (model : ModelState) (zones1 : ZoneState)
    (capacityStats : CapacityStats) (zone0 : FocusZone) : StepResult :=
  let contextKey := createContextKey context
  let actions0 := getZoneActions zone0 dynamicArms
  let totalObs := getTotalObservations model contextKey
  if totalObs < 1 ∧ capacityStats.recentSessions = [] then
    ⟨heuristicRecommendation, false, actions0, model, zones1⟩
  else if totalObs < BOOTSTRAP_THRESHOLD then
    match capacityStats.recentSessions with
    | [] => ⟨heuristicRecommendation, true, actions0, model, zones1⟩
    | s :: rest =>
      ⟨((5 * round (bootstrapEwma (s :: rest) / 5) : ℤ) : ℚ), true, actions0,
        model, zones1⟩
  else
    let zoneFinal :=
      if 0 < capacityStats.averageCapacity then
        let correctZone :=
          detectZone ((round capacityStats.averageCapacity : ℤ) : ℚ)
            context.energyLevel
        if correctZone ≠ zone0 then correctZone else zone0
      else zone0
    let actionsFinal := getZoneActions zoneFinal dynamicArms
    let bres := getBestAction sampleFn u context actionsFinal dynamicArms
      model zones1
    ⟨(bres.1 : ℚ), false, actionsFinal, bres.2.1, bres.2.2⟩

/-- The pre-clamp cross-energy levels walked strictly below the current
one, in the order `currentIdx - 1, …, 0` of the source's loop. -/
def lowerEnergyLevels : EnergyLevel → List EnergyLevel
  | .mid => [.low]
  | .high => [.mid, .low]
  | _ => []

/-- `lowerArms.reduce(...)`: the arm of highest posterior mean among the
keys of a lower-energy context model (first occurrence wins ties; keys
enumerate ascending). The lookups always succeed, so the prior default of
`actionParams` is never used. -/
def bestProvenArm (cm : ContextModel) : Option ℕ :=
  match cm.map Prod.fst with
  | [] => Option.none
  | a :: rest =>
    some (rest.foldl
      (fun best arm =>
        let pb := actionParams cm best
        let pa := actionParams cm arm
        if pb.alpha / (pb.alpha + pb.beta) < pa.alpha / (pa.alpha + pa.beta)
        then arm else best)
      a)

/-- One iteration of the cross-energy floor loop. -/
def floorStep (model : ModelState) (taskType : String) (fl : ℚ)
    (lv : EnergyLevel) : ℚ :=
  match lookupKey model (taskType ++ "|" ++ lv.toKey) with
  | Option.none => fl
  | some lowerModel =>
    match bestProvenArm lowerModel with
    | Option.none => fl
    | some b => if fl < (b : ℚ) then (b : ℚ) else fl

/-- The cross-energy floor of `getSmartRecommendation`: raise the value to
each strictly-lower energy level's best proven arm. -/
def crossEnergyFloor (model : ModelState) (taskType : String)
    (energyLevel : EnergyLevel) (x : ℚ) : ℚ :=
  (lowerEnergyLevels energyLevel).foldl (floorStep model taskType) x

/-- The final clamp of `getSmartRecommendation`: global bounds [10, 120]
during bootstrap, else into the current action range. -/
def clampValue (isBootstrap : Bool) (actions : List ℕ) (x : ℚ) : ℚ :=
  if isBootstrap then max 10 (min x 120)
  else max (listMin actions) (min x (listMax actions))

/-- `getSmartRecommendation(context, heuristicRecommendation, dynamicArms,
includeShortSessions)`. Returns the recommendation and the updated model
and zone maps (the capacity map is read-only here). The catch-all error
branch of the source (which returns the heuristic with source "heuristic")
cannot fire in the embedding. -/
def getSmartRecommendation (sampleFn : ℕ → ℚ → ℚ → ℚ) (u : ℚ)
    (context : Context) (heuristicRecommendation : ℚ) (dynamicArms : List ℕ)
    (includeShortSessions : Bool) (model : ModelState) (zones : ZoneState)
    (capacity : CapacityState) : RecOutput × ModelState × ZoneState :=
  let contextKey := createContextKey context
  let zres := getZoneData zones contextKey context.energyLevel
    heuristicRecommendation
  let capacityStats := getCapacityStats capacity contextKey
  let zone0 := if includeShortSessions then FocusZone.short else zres.1.zone
  let s := recommendStep sampleFn u context heuristicRecommendation
    dynamicArms model zres.2 capacityStats zone0
  let totalObs := getTotalObservations model contextKey
  let capacityAdjusted :=
    adjustForCapacity s.modelRec capacityStats context.energyLevel
  let floored :=
    crossEnergyFloor model context.taskType context.energyLevel
      capacityAdjusted
  let finalValue := clampValue s.isBootstrap s.actions floored
  let source :=
    if capacityAdjusted ≠ s.modelRec then Source.capacity
    else if 5 ≤ totalObs then Source.learned
    else Source.blended
  (⟨finalValue, source⟩, s.model, s.zones)

-- ===========================================================================
-- Break recommendations (src/services/rl/index.ts)
-- ===========================================================================

/-- `getBreakActionsForFocus(focusDuration)`: break options capped at a
third of the focus duration, floor 5. -/
def getBreakActionsForFocus (focusDuration : ℚ) : List ℕ :=
  let maxBreak := max 5 ⌊focusDuration / 3⌋
  BREAK_ACTIONS.filter (fun a => (a : ℤ) ≤ maxBreak)

/-- `getSmartBreakRecommendation(context, baseBreak, focusDuration,
includeShortSessions)`. -/
def getSmartBreakRecommendation (sampleFn : ℕ → ℚ → ℚ → ℚ) (u : ℚ)
    (context : Context) (baseBreak focusDuration : ℚ)
    (includeShortSessions : Bool) (model : ModelState) (zones : ZoneState) :
    (ℚ × Source) × ModelState × ZoneState :=
  let breakContext : Context :=
    ⟨context.taskType ++ "-break", context.energyLevel⟩
  let contextKey := createContextKey breakContext
  let availableBreaks0 := getBreakActionsForFocus focusDuration
  let availableBreaks :=
    if includeShortSessions then availableBreaks0.filter (fun b => b ≤ 5)
    else availableBreaks0
  let clampedBase := min baseBreak (listMax availableBreaks)
  let totalObs := getTotalObservations model contextKey
  if totalObs < 2 then ((clampedBase, Source.heuristic), model, zones)
  else
    let bres := getBestAction sampleFn u breakContext availableBreaks []
      model zones
    (((bres.1 : ℚ), Source.learned), bres.2.1, bres.2.2)

-- ===========================================================================
-- Session completion pipeline (src/services/sessionCompletionService.ts)
-- ===========================================================================

/-- src/constants/timer.ts: minimum seconds of focus before saving. -/
def MIN_SESSION_FOR_SAVE : ℚ := 60

/-- src/utils/sessionUtils.ts `secondsToMinutes` (rounded). -/
def secondsToMinutes (seconds : ℚ) : ℤ := round (seconds / 60)

/-- Completion types handled by `completeSession`. -/
inductive CompletionType where
  | completed
  | skippedFocus
  | skippedBreak
deriving DecidableEq, Repr

/-- Parameters of `completeSession` (durations in seconds, as in the
source). -/
structure SessionCompletionParams where
  type : CompletionType
  taskType : String
  energyLevel : EnergyLevel
  recommendedFocusDuration : ℚ
  recommendedBreakDuration : ℚ
  userAcceptedRecommendation : Bool
  originalFocusDuration : ℚ
  selectedBreakDuration : ℚ
  focusedTime : ℚ
deriving DecidableEq, Repr

/-- The three persisted learning maps together. -/
structure RLState where
  model : ModelState
  zones : ZoneState
  capacity : CapacityState
deriving DecidableEq, Repr

/-- `completeSession(params)`: reward computation, model / capacity / zone
updates and spillover. The database write and notifications are omitted
(they do not touch the learning state). Minute values recorded as model
actions are non-negative in every reachable call, so the `Int.toNat`
coercions are exact. -/
def completeSession (p : SessionCompletionParams) (st : RLState) : RLState :=
  let focusTimeInMinutes := secondsToMinutes p.focusedTime
  let totalFocusDuration := secondsToMinutes p.originalFocusDuration
  let breakTimeInMinutes := secondsToMinutes p.selectedBreakDuration
  if p.type ≠ .completed ∧ p.focusedTime < MIN_SESSION_FOR_SAVE then st
  else
    let sessionCompleted := p.type = .completed
    let skipReason :=
      match p.type with
      | .skippedFocus => SkipReason.skippedFocus
      | .skippedBreak => SkipReason.skippedBreak
      | .completed => SkipReason.none
    let baseReward := calculateReward sessionCompleted
      p.userAcceptedRecommendation (focusTimeInMinutes : ℚ)
      (totalFocusDuration : ℚ) p.recommendedFocusDuration skipReason
    let contextKey := p.taskType ++ "|" ++ p.energyLevel.toKey
    let reward :=
      if sessionCompleted then
        applyCapacityScaling baseReward (focusTimeInMinutes : ℚ)
          (getCapacityStats st.capacity contextKey).averageCapacity
      else baseReward
    let focusContext : Context := ⟨p.taskType, p.energyLevel⟩
    if sessionCompleted then
      let model1 := updateModel st.model focusContext focusTimeInMinutes.toNat
        (some reward)
      let breakContext : Context := ⟨p.taskType ++ "-break", p.energyLevel⟩
      let model2 := updateModel model1 breakContext breakTimeInMinutes.toNat
        (some reward)
      let capacity1 := updateCapacityStats st.capacity contextKey
        (focusTimeInMinutes : ℚ) (focusTimeInMinutes : ℚ) true
      let zones1 := updateZoneData st.zones contextKey (focusTimeInMinutes : ℚ)
      if SPILLOVER_THRESHOLD ≤ reward then
        let zres := getZoneData zones1 contextKey p.energyLevel
          (focusTimeInMinutes : ℚ)
        let zoneActs := getZoneActions zres.1.zone []
        match zoneActs.find? (fun (a : ℕ) => focusTimeInMinutes < (a : ℤ)) with
        | some nextArm =>
          ⟨updateModel model2 focusContext nextArm
              (some (reward * SPILLOVER_FACTOR)), zres.2, capacity1⟩
        | Option.none => ⟨model2, zres.2, capacity1⟩
      else ⟨model2, zones1, capacity1⟩
    else if p.type = .skippedFocus then
      ⟨st.model, st.zones,
        updateCapacityStats st.capacity contextKey (totalFocusDuration : ℚ)
          (focusTimeInMinutes : ℚ) false⟩
    else
      let model1 := updateModel st.model focusContext focusTimeInMinutes.toNat
        (some reward)
      let breakContext : Context := ⟨p.taskType ++ "-break", p.energyLevel⟩
      ⟨updateModel model1 breakContext 0 (some reward), st.zones, st.capacity⟩

-- ===========================================================================
-- The approximate Beta sampler (src/services/rl/sampling.ts `sampleBeta`),
-- embedded over ℝ as a function of its two uniform draws
-- ===========================================================================

/-- `sampleBeta(alpha, beta)` as a function of the two `Math.random()`
draws `u` and `v`: `x = u^(1/alpha)`, `y = v^(1/beta)`, result
`x / (x + y)`. The division's JS result is `NaN` exactly when `x + y = 0`
(the `0/0` corner at `u = v = 0`), embedded here as `Option.none`. -/
noncomputable def sampleBeta (alpha beta u v : ℝ) : Option ℝ :=
  let x := u ^ (1 / alpha)
  let y := v ^ (1 / beta)
  if x + y = 0 then Option.none else some (x / (x + y))

-- ===========================================================================
-- Model-state operations for the parameter-positivity invariant
-- ===========================================================================

/-- The three operations that write the bandit model: the initialization
performed by `getBestAction` (for an arbitrary candidate list), an
`updateModel` call (an `Option.none` reward embeds `NaN`), and a
`penalizeRejection` call. -/
inductive ModelOp where
  | init (context : Context) (actions : List ℕ)
  | update (context : Context) (action : ℕ) (reward : Option ℚ)
  | reject (context : Context) (action : ℕ)

/-- Apply one model-writing operation. -/
def applyModelOp (m : ModelState) : ModelOp → ModelState
  | .init c acts => ensureActionParams m (createContextKey c) acts
  | .update c a r => updateModel m c a r
  | .reject c a => penalizeRejection m c a

/-- Run a sequence of model-writing operations from the empty state. -/
def runModelOps (ops : List ModelOp) : ModelState :=
  ops.foldl applyModelOp []

/-- Every stored parameter pair is strictly positive. -/
def paramsPos (m : ModelState) : Prop :=
  ∀ e ∈ m, ∀ q ∈ e.2, 0 < q.2.alpha ∧ 0 < q.2.beta

-- ===========================================================================
-- Helper lemmas
-- ===========================================================================

lemma lookupKey_setKey_self {α : Type} (m : List (String × α)) (k : String)
    (v : α) : lookupKey (setKey m k v) k = some v := by
  induction m with
  | nil => simp [setKey, lookupKey]
  | cons e rest ih =>
    by_cases hk : e.1 = k
    · simp [setKey, lookupKey, hk]
    · simp [setKey, lookupKey, hk, ih]

lemma lookupKey_mem {α : Type} {m : List (String × α)} {k : String} {v : α}
    (h : lookupKey m k = some v) : (k, v) ∈ m := by
  induction m with
  | nil => simp [lookupKey] at h
  | cons e rest ih =>
    by_cases hk : e.1 = k
    · rw [lookupKey, if_pos hk] at h
      have he : e = (k, v) := by
        obtain ⟨e1, e2⟩ := e
        simp_all
      rw [he]
      exact List.mem_cons_self _ _
    · rw [lookupKey, if_neg hk] at h
      exact List.mem_cons_of_mem _ (ih h)

lemma lookupAction_mem {cm : ContextModel} {a : ℕ} {p : ModelParameters}
    (h : lookupAction cm a = some p) : (a, p) ∈ cm := by
  induction cm with
  | nil => simp [lookupAction] at h
  | cons e rest ih =>
    by_cases ha : e.1 = a
    · rw [lookupAction, if_pos ha] at h
      have he : e = (a, p) := by
        obtain ⟨e1, e2⟩ := e
        simp_all
      rw [he]
      exact List.mem_cons_self _ _
    · rw [lookupAction, if_neg ha] at h
      exact List.mem_cons_of_mem _ (ih h)

lemma mem_setKey {α : Type} {m : List (String × α)} {k : String} {v : α} :
    ∀ x ∈ setKey m k v, x = (k, v) ∨ x ∈ m := by
  induction m with
  | nil =>
    intro x hx
    simp [setKey] at hx
    left
    simpa using hx
  | cons e rest ih =>
    intro x hx
    by_cases hk : e.1 = k
    · rw [setKey, if_pos hk, List.mem_cons] at hx
      rcases hx with hx | hx
      · left; rw [hx, hk]
      · right; exact List.mem_cons_of_mem _ hx
    · rw [setKey, if_neg hk, List.mem_cons] at hx
      rcases hx with hx | hx
      · right; rw [hx]; exact List.mem_cons_self _ _
      · rcases ih x hx with h1 | h1
        · left; exact h1
        · right; exact List.mem_cons_of_mem _ h1

lemma mem_setAction {cm : ContextModel} {a : ℕ} {p : ModelParameters} :
    ∀ x ∈ setAction cm a p, x = (a, p) ∨ x ∈ cm := by
  induction cm with
  | nil =>
    intro x hx
    simp [setAction] at hx
    left
    simpa using hx
  | cons e rest ih =>
    intro x hx
    rw [setAction] at hx
    by_cases ha : e.1 = a
    · rw [if_pos ha, List.mem_cons] at hx
      rcases hx with hx | hx
      · left; rw [hx, ha]
      · right; exact List.mem_cons_of_mem _ hx
    · rw [if_neg ha] at hx
      by_cases hlt : a < e.1
      · rw [if_pos hlt, List.mem_cons] at hx
        rcases hx with hx | hx
        · left; exact hx
        · right
          rw [List.mem_cons] at hx
          rcases hx with hx | hx
          · rw [hx]; exact List.mem_cons_self _ _
          · exact List.mem_cons_of_mem _ hx
      · rw [if_neg hlt, List.mem_cons] at hx
        rcases hx with hx | hx
        · right; rw [hx]; exact List.mem_cons_self _ _
        · rcases ih x hx with h1 | h1
          · left; exact h1
          · right; exact List.mem_cons_of_mem _ h1

/-- Positivity of every parameter pair of one context's action map. -/
def contextPos (cm : ContextModel) : Prop :=
  ∀ q ∈ cm, 0 < q.2.alpha ∧ 0 < q.2.beta

lemma contextPos_of_paramsPos {m : ModelState} {k : String}
    (hm : paramsPos m) : contextPos ((lookupKey m k).getD []) := by
  cases hl : lookupKey m k with
  | none => intro q hq; simp at hq
  | some cm =>
    intro q hq
    exact hm (k, cm) (lookupKey_mem hl) q hq

lemma contextPos_setAction {cm : ContextModel} {a : ℕ} {p : ModelParameters}
    (hcm : contextPos cm) (hp : 0 < p.alpha ∧ 0 < p.beta) :
    contextPos (setAction cm a p) := by
  intro q hq
  rcases mem_setAction q hq with h1 | h1
  · rw [h1]; exact hp
  · exact hcm q h1

lemma paramsPos_setKey {m : ModelState} {k : String} {cm : ContextModel}
    (hm : paramsPos m) (hcm : contextPos cm) : paramsPos (setKey m k cm) := by
  intro e he
  rcases mem_setKey e he with h1 | h1
  · rw [h1]; exact hcm
  · exact hm e h1

lemma defaultParamsPos : (0 : ℚ) < DEFAULT_ALPHA ∧ (0 : ℚ) < DEFAULT_BETA := by
  constructor <;> norm_num [DEFAULT_ALPHA, DEFAULT_BETA]

lemma contextPos_ensureFold {acts : List ℕ} :
    ∀ {cm : ContextModel}, contextPos cm →
      contextPos (acts.foldl
        (fun m a =>
          if (lookupAction m a).isSome then m
          else setAction m a ⟨DEFAULT_ALPHA, DEFAULT_BETA⟩)
        cm) := by
  induction acts with
  | nil => intro cm hcm; exact hcm
  | cons a rest ih =>
    intro cm hcm
    rw [List.foldl_cons]
    apply ih
    by_cases hs : (lookupAction cm a).isSome
    · rw [if_pos hs]; exact hcm
    · rw [if_neg hs]
      exact contextPos_setAction hcm defaultParamsPos

lemma paramsPos_ensureActionParams {m : ModelState} (k : String)
    (acts : List ℕ) (hm : paramsPos m) :
    paramsPos (ensureActionParams m k acts) := by
  unfold ensureActionParams
  exact paramsPos_setKey hm (contextPos_ensureFold (contextPos_of_paramsPos hm))

lemma actionParams_pos {cm : ContextModel} {a : ℕ} (hcm : contextPos cm) :
    0 < (actionParams cm a).alpha ∧ 0 < (actionParams cm a).beta := by
  unfold actionParams
  cases hl : lookupAction cm a with
  | none => simpa using defaultParamsPos
  | some p => exact hcm (a, p) (lookupAction_mem hl)

lemma paramsPos_updateModel {m : ModelState} (c : Context) (a : ℕ)
    (r : Option ℚ) (hm : paramsPos m) : paramsPos (updateModel m c a r) := by
  unfold updateModel
  cases r with
  | none => exact hm
  | some rr =>
    dsimp only
    by_cases h0 : rr = 0
    · rw [if_pos h0]; exact hm
    · rw [if_neg h0]
      have hcm : contextPos ((lookupKey m (createContextKey c)).getD []) :=
        contextPos_of_paramsPos hm
      have hp := actionParams_pos (a := a) hcm
      have hmult : (0 : ℚ) ≤ (if 7/10 < rr then (3 : ℚ)/2 else 1) := by
        split_ifs <;> norm_num
      have hsw : (0 : ℚ) ≤ max 0 (min 1 rr) := le_max_left 0 _
      have hfw : (0 : ℚ) ≤ max 0 (1 - max 0 (min 1 rr)) := le_max_left 0 _
      apply paramsPos_setKey hm
      apply contextPos_setAction hcm
      constructor
      · exact add_pos_of_pos_of_nonneg hp.1 (mul_nonneg hsw hmult)
      · exact add_pos_of_pos_of_nonneg hp.2 (mul_nonneg hfw hmult)

lemma paramsPos_applyModelOp {m : ModelState} (op : ModelOp)
    (hm : paramsPos m) : paramsPos (applyModelOp m op) := by
  cases op with
  | init c acts => exact paramsPos_ensureActionParams _ _ hm
  | update c a r => exact paramsPos_updateModel _ _ _ hm
  | reject c a =>
    show paramsPos (penalizeRejection m c a)
    unfold penalizeRejection
    exact paramsPos_updateModel _ _ _ hm

lemma paramsPos_foldl (ops : List ModelOp) :
    ∀ m : ModelState, paramsPos m → paramsPos (ops.foldl applyModelOp m) := by
  induction ops with
  | nil => intro m hm; exact hm
  | cons op rest ih =>
    intro m hm
    rw [List.foldl_cons]
    exact ih _ (paramsPos_applyModelOp op hm)

/-- Claim C9: every model state reachable from the empty state through any
sequence of getBestAction initializations, updateModel calls (with
arbitrary reward, including negative and NaN), and penalizeRejection
calls, has alpha > 0 and beta > 0 in every stored parameter entry. -/
theorem modelParams_positive (ops : List ModelOp) :
    paramsPos (runModelOps ops) := by
  apply paramsPos_foldl
  intro e he
  simp at he

-- ===========================================================================
-- Claim C10: range and totality of the approximate Beta sampler
-- ===========================================================================

/-- Claim C10: for alpha, beta > 0 the sampler, as a function of its two
uniform draws, yields a number in (0, 1) when both draws are strictly
inside (0, 1), a number in [0, 1] for draws in [0, 1) other than the
corner (0, 0), and no number (the 0/0 NaN) at u = v = 0. -/
theorem sampleBeta_range (alpha beta : ℝ) (ha : 0 < alpha) (hb : 0 < beta) :
    (∀ u v : ℝ, 0 < u → u < 1 → 0 < v → v < 1 →
      ∃ r, sampleBeta alpha beta u v = some r ∧ 0 < r ∧ r < 1) ∧
    (∀ u v : ℝ, 0 ≤ u → u < 1 → 0 ≤ v → v < 1 → ¬(u = 0 ∧ v = 0) →
      ∃ r, sampleBeta alpha beta u v = some r ∧ 0 ≤ r ∧ r ≤ 1) ∧
    sampleBeta alpha beta 0 0 = Option.none := by
  have hea : (0 : ℝ) < 1 / alpha := by positivity
  have heb : (0 : ℝ) < 1 / beta := by positivity
  refine ⟨?_, ?_, ?_⟩
  · intro u v hu hu1 hv hv1
    have hx : 0 < u ^ (1 / alpha) := Real.rpow_pos_of_pos hu _
    have hy : 0 < v ^ (1 / beta) := Real.rpow_pos_of_pos hv _
    have hsum : 0 < u ^ (1 / alpha) + v ^ (1 / beta) := by linarith
    refine ⟨u ^ (1 / alpha) / (u ^ (1 / alpha) + v ^ (1 / beta)), ?_, ?_, ?_⟩
    · unfold sampleBeta
      rw [if_neg (ne_of_gt hsum)]
    · exact div_pos hx hsum
    · rw [div_lt_one hsum]; linarith
  · intro u v hu hu1 hv hv1 hne
    have hx : 0 ≤ u ^ (1 / alpha) := Real.rpow_nonneg hu _
    have hy : 0 ≤ v ^ (1 / beta) := Real.rpow_nonneg hv _
    have hsum : 0 < u ^ (1 / alpha) + v ^ (1 / beta) := by
      rcases lt_or_eq_of_le hu with hu0 | hu0
      · have hxp : 0 < u ^ (1 / alpha) := Real.rpow_pos_of_pos hu0 _
        linarith
      · have hv0 : 0 < v := by
          rcases lt_or_eq_of_le hv with hvp | hvp
          · exact hvp
          · exact absurd ⟨hu0.symm, hvp.symm⟩ hne
        have hyp : 0 < v ^ (1 / beta) := Real.rpow_pos_of_pos hv0 _
        linarith
    refine ⟨u ^ (1 / alpha) / (u ^ (1 / alpha) + v ^ (1 / beta)), ?_, ?_, ?_⟩
    · unfold sampleBeta
      rw [if_neg (ne_of_gt hsum)]
    · exact div_nonneg hx hsum.le
    · rw [div_le_one hsum]; linarith
  · unfold sampleBeta
    have h0a : (0 : ℝ) ^ (1 / alpha) = 0 := Real.zero_rpow (ne_of_gt hea)
    have h0b : (0 : ℝ) ^ (1 / beta) = 0 := Real.zero_rpow (ne_of_gt heb)
    dsimp only
    rw [h0a, h0b, if_pos (by norm_num)]

/-- Witness for C10 at alpha = beta = 1, u = v = 1/2. -/
theorem sampleBeta_range_witness :
    ∃ r, sampleBeta 1 1 (1/2) (1/2) = some r ∧ 0 < r ∧ r < 1 :=
  (sampleBeta_range 1 1 one_pos one_pos).1 (1/2) (1/2) one_half_pos
    one_half_lt_one one_half_pos one_half_lt_one

-- ===========================================================================
-- Claim C4: zone-transition hysteresis thresholds
-- ===========================================================================

/-- Counterexample for C4: the claim says zone "short" with selections
[25, 28, 30, 26, 31] (average 28) transitions to "long", but the
short-to-long threshold is an average of at least 30, so the zone stays
"short". -/
theorem hysteresis_cex :
    checkZoneTransition ⟨.short, 1, [25, 28, 30, 26, 31], false⟩ =
      FocusZone.short ∧
    FocusZone.short ≠ FocusZone.long := by
  constructor
  · norm_num [checkZoneTransition, lastFiveAverage]
    try decide
  · decide

/-- Claim C4 (amended): zone "short" with selections [25, 28, 30, 26, 31]
(average 28 < 30) stays "short", selections [15, 15, 20, 18, 12] also stay
"short"; short transitions to "long" exactly when the average of the last
five selections reaches 30. -/
theorem hysteresis_thresholds :
    checkZoneTransition ⟨.short, 1, [25, 28, 30, 26, 31], false⟩ =
      FocusZone.short ∧
    checkZoneTransition ⟨.short, 1, [15, 15, 20, 18, 12], false⟩ =
      FocusZone.short ∧
    ∀ zd : ZoneData, zd.zone = .short → 5 ≤ zd.selections.length →
      30 ≤ lastFiveAverage zd.selections →
      checkZoneTransition zd = FocusZone.long := by
  refine ⟨?_, ?_, ?_⟩
  · norm_num [checkZoneTransition, lastFiveAverage]
    try decide
  · norm_num [checkZoneTransition, lastFiveAverage]
    try decide
  · intro zd hz hlen havg
    unfold checkZoneTransition
    rw [if_neg (by omega)]
    rw [if_pos ⟨hz, havg⟩]

/-- Witness for C4 at a zone with five selections of 30. -/
theorem hysteresis_thresholds_witness :
    (⟨.short, 1, [30, 30, 30, 30, 30], false⟩ : ZoneData).zone = .short ∧
    5 ≤ ([30, 30, 30, 30, 30] : List ℚ).length ∧
    (30 : ℚ) ≤ lastFiveAverage [30, 30, 30, 30, 30] ∧
    checkZoneTransition ⟨.short, 1, [30, 30, 30, 30, 30], false⟩ =
      FocusZone.long :=
  ⟨rfl, by norm_num, by norm_num [lastFiveAverage],
    hysteresis_thresholds.2.2 ⟨.short, 1, [30, 30, 30, 30, 30], false⟩ rfl
      (by norm_num) (by norm_num [lastFiveAverage])⟩

-- ===========================================================================
-- Claim C5: the low-energy guardrail of adjustForCapacity
-- ===========================================================================

/-- Counterexample for C5: with low energy but completion rate below 1/2
(three recorded sessions, average capacity 60), `adjustForCapacity`
overrides a model recommendation of 10 with 60, which is greater — the
capacity override runs before the low-energy guard. -/
theorem capacity_override_low_cex :
    adjustForCapacity 10
        ⟨[⟨60, 60, false⟩, ⟨60, 60, false⟩, ⟨60, 60, true⟩], 60, 1/3,
          .stable⟩ .low = 60 ∧
    (10 : ℚ) < 60 := by
  constructor
  · norm_num [adjustForCapacity, roundToNearest5, round_eq]
  · norm_num

/-- Claim C5 (amended): with low energy, `adjustForCapacity` returns the
model recommendation unchanged (so never a greater value) whenever fewer
than three sessions are recorded or the completion rate is at least 1/2;
the completion-rate-below-1/2 override ignores the energy level and can
exceed the model recommendation. -/
theorem adjustForCapacity_low_identity (modelRec : ℚ) (stats : CapacityStats)
    (h : stats.recentSessions.length < 3 ∨ 1/2 ≤ stats.completionRate) :
    adjustForCapacity modelRec stats .low = modelRec := by
  unfold adjustForCapacity
  by_cases h3 : stats.recentSessions.length < 3
  · rw [if_pos h3]
  · rw [if_neg h3]
    rcases h with h | h
    · exact absurd h h3
    · rw [if_neg (not_lt.mpr h)]
      rw [if_pos rfl]

/-- Witness for C5 at perfect completion with stable trend. -/
theorem adjustForCapacity_low_identity_witness :
    ((1 : ℚ)/2 ≤ (1 : ℚ)) ∧
    adjustForCapacity 25
      ⟨[⟨25, 25, true⟩, ⟨25, 25, true⟩, ⟨25, 25, true⟩], 25, 1, .stable⟩
      .low = 25 :=
  ⟨by norm_num,
    adjustForCapacity_low_identity 25
      ⟨[⟨25, 25, true⟩, ⟨25, 25, true⟩, ⟨25, 25, true⟩], 25, 1, .stable⟩
      (Or.inr (by norm_num))⟩

-- ===========================================================================
-- Claim C7: break candidates and the under-observed break branch
-- ===========================================================================

/-- Counterexample for C7: for a 60-minute focus the candidates are
[5, 10, 15, 20]; with an empty model (fewer than 2 observations) and base
break 7, the returned break is 7 — the "clamp" is an upper clamp only, so
the result is not a member of the candidate set. -/
theorem break_heuristic_cex :
    (getSmartBreakRecommendation (fun _ _ _ => 0) 0 ⟨"t", .mid⟩ 7 60 false
        [] []).1 = (7, Source.heuristic) ∧
    (7 : ℚ) ∉ (getBreakActionsForFocus 60).map (fun a => (a : ℚ)) := by
  constructor
  · norm_num [getSmartBreakRecommendation, getBreakActionsForFocus,
      BREAK_ACTIONS, createContextKey, EnergyLevel.toKey,
      getTotalObservations, lookupKey, listMax]
  · norm_num [getBreakActionsForFocus, BREAK_ACTIONS]

/-- Claim C7 (amended): the candidate break actions are exactly the members
of [5, 10, 15, 20, 25, 30] that are at most max(5, floor(focus/3)); with
fewer than 2 observations in the derived break context, the returned value
is min(baseBreak, max candidate) with source "heuristic" — an upper clamp
only, a member of the candidate set only when that minimum happens to lie
in it. -/
theorem break_heuristic_clamp (sampleFn : ℕ → ℚ → ℚ → ℚ) (u : ℚ)
    (context : Context) (baseBreak focusDuration : ℚ) (model : ModelState)
    (zones : ZoneState)
    (h : getTotalObservations model
      (createContextKey ⟨context.taskType ++ "-break", context.energyLevel⟩)
        < 2) :
    (getSmartBreakRecommendation sampleFn u context baseBreak focusDuration
        false model zones).1 =
      (min baseBreak (listMax (getBreakActionsForFocus focusDuration)),
        Source.heuristic) ∧
    ∀ a : ℕ, a ∈ getBreakActionsForFocus focusDuration ↔
      a ∈ BREAK_ACTIONS ∧ (a : ℤ) ≤ max 5 ⌊focusDuration / 3⌋ := by
  constructor
  · unfold getSmartBreakRecommendation
    simp only [Bool.false_eq_true, if_false]
    rw [if_pos h]
  · intro a
    unfold getBreakActionsForFocus
    simp [List.mem_filter]

/-- Witness for C7 with an empty model, base break 5 and 25-minute focus. -/
theorem break_heuristic_clamp_witness :
    getTotalObservations []
        (createContextKey ⟨"t" ++ "-break", EnergyLevel.mid⟩) < 2 ∧
    (getSmartBreakRecommendation (fun _ _ _ => 0) 0 ⟨"t", .mid⟩ 5 25 false
        [] []).1 =
      (min 5 (listMax (getBreakActionsForFocus 25)), Source.heuristic) :=
  ⟨by norm_num [getTotalObservations, lookupKey],
    (break_heuristic_clamp (fun _ _ _ => 0) 0 ⟨"t", .mid⟩ 5 25 [] []
      (by norm_num [getTotalObservations, lookupKey])).1⟩

-- ===========================================================================
-- Claim C8: zone seeding of getZoneData versus updateZoneData
-- ===========================================================================

/-- Counterexample for C8: on a first touch with selected duration 30,
`updateZoneData` stores zone "short" (its inline rule is ≤ 30), while
`detectZone 30` is "long" for mid energy — the two seeding rules differ. -/
theorem updateZone_seed_cex :
    (lookupKey (updateZoneData [] "t|mid" 30) "t|mid").map (fun z => z.zone) =
      some FocusZone.short ∧
    detectZone 30 .mid = FocusZone.long := by
  constructor
  · norm_num [updateZoneData, lookupKey, setKey, checkZoneTransition,
      lastFiveAverage]
    try decide
  · norm_num [detectZone]

/-- Claim C8 (amended): `getZoneData` does seed a previously unseen context
via `detectZone(heuristicDuration, energyLevel)`, but `updateZoneData`
seeds an unseen context with its own inline thresholds — at most 30 gives
"short", at least 50 gives "extended", otherwise "long" — which disagree
with `detectZone` at 30, on [50, 70), and on the 26-to-29 band at non-low
energy. -/
theorem zone_seeding_rules (zones : ZoneState) (contextKey : String)
    (d h : ℚ) (e : EnergyLevel)
    (hnone : lookupKey zones contextKey = Option.none) :
    (lookupKey (updateZoneData zones contextKey d) contextKey).map
        (fun z => z.zone) =
      some (if d ≤ 30 then FocusZone.short
        else if 50 ≤ d then FocusZone.extended else FocusZone.long) ∧
    (getZoneData zones contextKey e h).1.zone = detectZone h e := by
  constructor
  · unfold updateZoneData
    rw [hnone]
    norm_num [checkZoneTransition, lookupKey_setKey_self]
  · unfold getZoneData
    rw [hnone]

/-- Witness for C8 at an unseen context with selected duration 40. -/
theorem zone_seeding_rules_witness :
    lookupKey ([] : ZoneState) "k" = Option.none ∧
    (lookupKey (updateZoneData [] "k" 40) "k").map (fun z => z.zone) =
      some (if (40 : ℚ) ≤ 30 then FocusZone.short
        else if 50 ≤ (40 : ℚ) then FocusZone.extended else FocusZone.long) ∧
    (getZoneData [] "k" EnergyLevel.low 25).1.zone =
      detectZone 25 EnergyLevel.low :=
  ⟨rfl, (zone_seeding_rules [] "k" 40 25 EnergyLevel.low rfl).1,
    (zone_seeding_rules [] "k" 40 25 EnergyLevel.low rfl).2⟩

-- ===========================================================================
-- Claim C2: cold start on an empty persisted state
-- ===========================================================================

lemma crossEnergyFloor_nil (t : String) (e : EnergyLevel) (x : ℚ) :
    crossEnergyFloor [] t e x = x := by
  cases e <;> rfl

/-- Counterexample for C2: with an empty persisted state and heuristic
baseline 5 at mid energy, `getRecommendation` returns value 10 (the 5 is
clamped into the detected zone's action range) with source "blended" — not
the claimed exact pair (5, "heuristic"). -/
theorem cold_start_cex :
    (getSmartRecommendation (fun _ _ _ => 0) 0 ⟨"t", .mid⟩ 5 [] false
        [] [] []).1 = ⟨10, Source.blended⟩ ∧
    (10 : ℚ) ≠ 5 ∧ Source.blended ≠ Source.heuristic := by
  refine ⟨?_, by norm_num, by decide⟩
  norm_num [getSmartRecommendation, recommendStep, getZoneData, lookupKey,
    setKey, getCapacityStats, emptyCapacityStats, getTotalObservations,
    adjustForCapacity, crossEnergyFloor, lowerEnergyLevels, floorStep,
    clampValue, detectZone, getZoneActions, sortAsc, insertAsc, dedupFirst,
    ZONE_ACTIONS, listMin, listMax, BOOTSTRAP_THRESHOLD, RecOutput.mk.injEq]

/-- Claim C2 (amended): with an empty persisted state, every call returns
the heuristic baseline clamped into the action range of the zone detected
from that baseline, with source label "blended" (the label "heuristic"
occurs only on the error path); the value equals the baseline exactly when
the baseline already lies inside that range. -/
theorem cold_start_clamped_blended (sampleFn : ℕ → ℚ → ℚ → ℚ) (u : ℚ)
    (context : Context) (H : ℚ) :
    (getSmartRecommendation sampleFn u context H [] false [] [] []).1 =
      ⟨clampValue false
          (getZoneActions (detectZone H context.energyLevel) []) H,
        Source.blended⟩ ∧
    (listMin (getZoneActions (detectZone H context.energyLevel) []) ≤ H →
      H ≤ listMax (getZoneActions (detectZone H context.energyLevel) []) →
      (getSmartRecommendation sampleFn u context H [] false [] [] []).1.value
        = H) := by
  obtain ⟨t, e⟩ := context
  have hmain :
      (getSmartRecommendation sampleFn u ⟨t, e⟩ H [] false [] [] []).1 =
        ⟨clampValue false (getZoneActions (detectZone H e) []) H,
          Source.blended⟩ := by
    cases e <;>
      norm_num [getSmartRecommendation, recommendStep, getZoneData, lookupKey,
        setKey, getCapacityStats, emptyCapacityStats, getTotalObservations,
        adjustForCapacity, crossEnergyFloor, lowerEnergyLevels, floorStep,
        BOOTSTRAP_THRESHOLD, RecOutput.mk.injEq]
  refine ⟨hmain, fun h1 h2 => ?_⟩
  have hv : (getSmartRecommendation sampleFn u ⟨t, e⟩ H [] false [] [] []).1.value =
      clampValue false (getZoneActions (detectZone H e) []) H := by
    rw [hmain]
  rw [hv]
  unfold clampValue
  rw [if_neg (by simp)]
  rw [min_eq_left h2, max_eq_right h1]

/-- Witness for C2 with heuristic baseline 25 at mid energy (inside the
short zone's range [10, 30]), so the value is exactly 25. -/
theorem cold_start_clamped_blended_witness :
    listMin (getZoneActions (detectZone 25 EnergyLevel.mid) []) ≤ 25 ∧
    (25 : ℚ) ≤ listMax (getZoneActions (detectZone 25 EnergyLevel.mid) []) ∧
    (getSmartRecommendation (fun _ _ _ => 0) 0 ⟨"t", .mid⟩ 25 [] false
        [] [] []).1.value = 25 :=
  ⟨by norm_num [listMin, getZoneActions, sortAsc, insertAsc, dedupFirst,
      ZONE_ACTIONS, detectZone],
    by norm_num [listMax, getZoneActions, sortAsc, insertAsc, dedupFirst,
      ZONE_ACTIONS, detectZone],
    (cold_start_clamped_blended (fun _ _ _ => 0) 0 ⟨"t", .mid⟩ 25).2
      (by norm_num [listMin, getZoneActions, sortAsc, insertAsc, dedupFirst,
        ZONE_ACTIONS, detectZone])
      (by norm_num [listMax, getZoneActions, sortAsc, insertAsc, dedupFirst,
        ZONE_ACTIONS, detectZone])⟩

-- ===========================================================================
-- Claim C1: bounds of the returned focus value
-- ===========================================================================

/-- The condition selecting the bootstrap branch of
`getSmartRecommendation`: fewer than `BOOTSTRAP_THRESHOLD` observations
but not a true cold start. -/
abbrev inBootstrapPhase (model : ModelState) (capacity : CapacityState)
    (contextKey : String) : Prop :=
  getTotalObservations model contextKey < BOOTSTRAP_THRESHOLD ∧
  ¬(getTotalObservations model contextKey < 1 ∧
    (getCapacityStats capacity contextKey).recentSessions = [])

/-- The condition under which the Thompson-takeover branch auto-corrects
the zone away from "short": enough observations, proven capacity, and a
detected zone other than "short". -/
abbrev capacityZoneSwitch (model : ModelState) (capacity : CapacityState)
    (context : Context) : Prop :=
  BOOTSTRAP_THRESHOLD ≤ getTotalObservations model (createContextKey context) ∧
  0 < (getCapacityStats capacity (createContextKey context)).averageCapacity ∧
  detectZone
      ((round (getCapacityStats capacity
        (createContextKey context)).averageCapacity : ℤ) : ℚ)
      context.energyLevel ≠ FocusZone.short

lemma getSmartRecommendation_value_eq (sampleFn : ℕ → ℚ → ℚ → ℚ) (u : ℚ)
    (context : Context) (H : ℚ) (arms : List ℕ) (flag : Bool)
    (model : ModelState) (zones : ZoneState) (capacity : CapacityState) :
    (getSmartRecommendation sampleFn u context H arms flag model zones
        capacity).1.value =
      clampValue
        (recommendStep sampleFn u context H arms model
          (getZoneData zones (createContextKey context) context.energyLevel
            H).2
          (getCapacityStats capacity (createContextKey context))
          (if flag then FocusZone.short
            else (getZoneData zones (createContextKey context)
              context.energyLevel H).1.zone)).isBootstrap
        (recommendStep sampleFn u context H arms model
          (getZoneData zones (createContextKey context) context.energyLevel
            H).2
          (getCapacityStats capacity (createContextKey context))
          (if flag then FocusZone.short
            else (getZoneData zones (createContextKey context)
              context.energyLevel H).1.zone)).actions
        (crossEnergyFloor model context.taskType context.energyLevel
          (adjustForCapacity
            (recommendStep sampleFn u context H arms model
              (getZoneData zones (createContextKey context)
                context.energyLevel H).2
              (getCapacityStats capacity (createContextKey context))
              (if flag then FocusZone.short
                else (getZoneData zones (createContextKey context)
                  context.energyLevel H).1.zone)).modelRec
            (getCapacityStats capacity (createContextKey context))
            context.energyLevel)) := rfl

lemma recommendStep_actions_shape (sampleFn : ℕ → ℚ → ℚ → ℚ) (u : ℚ)
    (context : Context) (H : ℚ) (arms : List ℕ) (model : ModelState)
    (zones1 : ZoneState) (stats : CapacityStats) (zone0 : FocusZone) :
    ∃ z, (recommendStep sampleFn u context H arms model zones1 stats
      zone0).actions = getZoneActions z arms := by
  unfold recommendStep
  dsimp only
  split
  · exact ⟨zone0, rfl⟩
  · split
    · split
      · exact ⟨zone0, rfl⟩
      · exact ⟨zone0, rfl⟩
    · exact ⟨_, rfl⟩

lemma clampValue_false_eq (acts : List ℕ) (x : ℚ) :
    clampValue false acts x = max (listMin acts) (min x (listMax acts)) := rfl

lemma clampValue_true_eq (acts : List ℕ) (x : ℚ) :
    clampValue true acts x = max 10 (min x 120) := rfl

lemma listMin_short : listMin (getZoneActions FocusZone.short []) = 10 := by
  norm_num [listMin, getZoneActions, sortAsc, insertAsc, dedupFirst,
    ZONE_ACTIONS]

lemma listMax_short : listMax (getZoneActions FocusZone.short []) = 30 := by
  norm_num [listMax, getZoneActions, sortAsc, insertAsc, dedupFirst,
    ZONE_ACTIONS]

lemma listMin_long : listMin (getZoneActions FocusZone.long []) = 25 := by
  norm_num [listMin, getZoneActions, sortAsc, insertAsc, dedupFirst,
    ZONE_ACTIONS]

lemma listMax_long : listMax (getZoneActions FocusZone.long []) = 60 := by
  norm_num [listMax, getZoneActions, sortAsc, insertAsc, dedupFirst,
    ZONE_ACTIONS]

lemma listMin_extended :
    listMin (getZoneActions FocusZone.extended []) = 50 := by
  norm_num [listMin, getZoneActions, sortAsc, insertAsc, dedupFirst,
    ZONE_ACTIONS]

lemma listMax_extended :
    listMax (getZoneActions FocusZone.extended []) = 120 := by
  norm_num [listMax, getZoneActions, sortAsc, insertAsc, dedupFirst,
    ZONE_ACTIONS]

lemma clamp_pair_bounds (lo hi x : ℚ) (h1 : 10 ≤ lo) (h2 : lo ≤ 120)
    (h3 : hi ≤ 120) :
    10 ≤ max lo (min x hi) ∧ max lo (min x hi) ≤ 120 :=
  ⟨le_trans h1 (le_max_left _ _),
    max_le h2 (le_trans (min_le_right _ _) h3)⟩

lemma clampValue_bounds (bb : Bool) (z : FocusZone) (x : ℚ) :
    10 ≤ clampValue bb (getZoneActions z []) x ∧
    clampValue bb (getZoneActions z []) x ≤ 120 := by
  cases bb
  · cases z
    · rw [clampValue_false_eq, listMin_short, listMax_short]
      exact clamp_pair_bounds 10 30 x (by norm_num) (by norm_num) (by norm_num)
    · rw [clampValue_false_eq, listMin_long, listMax_long]
      exact clamp_pair_bounds 25 60 x (by norm_num) (by norm_num) (by norm_num)
    · rw [clampValue_false_eq, listMin_extended, listMax_extended]
      exact clamp_pair_bounds 50 120 x (by norm_num) (by norm_num)
        (by norm_num)
  · rw [clampValue_true_eq]
    exact clamp_pair_bounds 10 120 x (by norm_num) (by norm_num) (by norm_num)

lemma clampValue_short_le (x : ℚ) :
    clampValue false (getZoneActions FocusZone.short []) x ≤ 30 := by
  rw [clampValue_false_eq, listMin_short, listMax_short]
  exact max_le (by norm_num) (min_le_right _ _)

lemma recommendStep_short_noSwitch (sampleFn : ℕ → ℚ → ℚ → ℚ) (u : ℚ)
    (context : Context) (H : ℚ) (arms : List ℕ) (model : ModelState)
    (zones1 : ZoneState) (capacity : CapacityState)
    (hb : ¬ inBootstrapPhase model capacity (createContextKey context))
    (hs : ¬ capacityZoneSwitch model capacity context) :
    (recommendStep sampleFn u context H arms model zones1
        (getCapacityStats capacity (createContextKey context))
        FocusZone.short).isBootstrap = false ∧
    (recommendStep sampleFn u context H arms model zones1
        (getCapacityStats capacity (createContextKey context))
        FocusZone.short).actions = getZoneActions FocusZone.short arms := by
  unfold recommendStep
  dsimp only
  by_cases h1 : getTotalObservations model (createContextKey context) < 1 ∧
      (getCapacityStats capacity (createContextKey context)).recentSessions
        = []
  · rw [if_pos h1]
    exact ⟨rfl, rfl⟩
  · rw [if_neg h1]
    by_cases h2 : getTotalObservations model (createContextKey context) <
        BOOTSTRAP_THRESHOLD
    · exact absurd ⟨h2, h1⟩ hb
    · rw [if_neg h2]
      by_cases h3 : 0 < (getCapacityStats capacity
          (createContextKey context)).averageCapacity
      · rw [if_pos h3]
        by_cases h4 : detectZone
            ((round (getCapacityStats capacity
              (createContextKey context)).averageCapacity : ℤ) : ℚ)
            context.energyLevel ≠ FocusZone.short
        · exact absurd ⟨not_lt.mp h2, h3, h4⟩ hs
        · rw [if_neg h4]
          exact ⟨rfl, rfl⟩
      · rw [if_neg h3]
        exact ⟨rfl, rfl⟩

/-- Counterexample for C1: with the short-sessions flag set and a state in
the bootstrap phase (one recorded capacity session of 60 minutes reached
through a selected duration of 60), the returned value is 60, outside the
claimed [10, 30] range for the flag. -/
theorem bounds_short_flag_cex :
    (getSmartRecommendation (fun _ _ _ => 0) 0 ⟨"t", .mid⟩ 25 [] true [] []
        [("t|mid", ⟨[⟨60, 60, true⟩], 60, 1, .stable⟩)]).1.value = 60 ∧
    ¬((60 : ℚ) ≤ 30) := by
  have hk : createContextKey ⟨"t", .mid⟩ = "t|mid" := rfl
  constructor
  · norm_num [getSmartRecommendation, hk, recommendStep, getZoneData,
      lookupKey, setKey, getCapacityStats, emptyCapacityStats,
      getTotalObservations, detectZone, adjustForCapacity, crossEnergyFloor,
      lowerEnergyLevels, floorStep, EnergyLevel.toKey, clampValue,
      bootstrapEwma, EWMA_ALPHA, BOOTSTRAP_THRESHOLD, round_eq]
  · norm_num

/-- Claim C1 (amended): with an empty dynamic-arms list, the returned value
always lies in [10, 120] (in particular in the claimed [5, 120]); when the
short-sessions flag is set the value lies in [10, 30] provided the call is
neither in the bootstrap phase (which clamps only to [10, 120]) nor
subject to a capacity-driven zone auto-correction away from "short". -/
theorem recommendation_bounds (sampleFn : ℕ → ℚ → ℚ → ℚ) (u : ℚ)
    (context : Context) (H : ℚ) (flag : Bool) (model : ModelState)
    (zones : ZoneState) (capacity : CapacityState) :
    (10 ≤ (getSmartRecommendation sampleFn u context H [] flag model zones
        capacity).1.value ∧
      (getSmartRecommendation sampleFn u context H [] flag model zones
        capacity).1.value ≤ 120) ∧
    (flag = true →
      ¬ inBootstrapPhase model capacity (createContextKey context) →
      ¬ capacityZoneSwitch model capacity context →
      (getSmartRecommendation sampleFn u context H [] flag model zones
        capacity).1.value ≤ 30) := by
  constructor
  · rw [getSmartRecommendation_value_eq]
    obtain ⟨z, hz⟩ := recommendStep_actions_shape sampleFn u context H []
      model
      (getZoneData zones (createContextKey context) context.energyLevel H).2
      (getCapacityStats capacity (createContextKey context))
      (if flag then FocusZone.short
        else (getZoneData zones (createContextKey context)
          context.energyLevel H).1.zone)
    rw [hz]
    exact clampValue_bounds _ z _
  · intro hflag hb hs
    subst hflag
    rw [getSmartRecommendation_value_eq]
    simp only [if_true]
    have h := recommendStep_short_noSwitch sampleFn u context H [] model
      (getZoneData zones (createContextKey context) context.energyLevel H).2
      capacity hb hs
    rw [h.1, h.2]
    exact clampValue_short_le _

/-- Witness for C1 with the flag set on an empty state (a true cold start,
so neither exception applies): the value is within [10, 30]. -/
theorem recommendation_bounds_witness :
    ¬ inBootstrapPhase [] [] (createContextKey ⟨"t", .mid⟩) ∧
    ¬ capacityZoneSwitch [] [] ⟨"t", .mid⟩ ∧
    (getSmartRecommendation (fun _ _ _ => 0) 0 ⟨"t", .mid⟩ 25 [] true [] []
      []).1.value ≤ 30 := by
  have hb : ¬ inBootstrapPhase [] [] (createContextKey ⟨"t", .mid⟩) := by
    norm_num [inBootstrapPhase, getTotalObservations, lookupKey,
      getCapacityStats, emptyCapacityStats, BOOTSTRAP_THRESHOLD]
  have hs : ¬ capacityZoneSwitch [] [] ⟨"t", .mid⟩ := by
    norm_num [capacityZoneSwitch, getTotalObservations, lookupKey,
      getCapacityStats, emptyCapacityStats, BOOTSTRAP_THRESHOLD]
  exact ⟨hb, hs,
    (recommendation_bounds (fun _ _ _ => 0) 0 ⟨"t", .mid⟩ 25 true [] []
      []).2 rfl hb hs⟩

-- ===========================================================================
-- Claim C6: the cross-energy floor and the final zone clamp
-- ===========================================================================

lemma le_floorStep (model : ModelState) (t : String) (x : ℚ)
    (lv : EnergyLevel) : x ≤ floorStep model t x lv := by
  unfold floorStep
  cases hm : lookupKey model (t ++ "|" ++ lv.toKey) with
  | none => exact le_refl x
  | some lm =>
    dsimp only
    cases hbb : bestProvenArm lm with
    | none => exact le_refl x
    | some b =>
      dsimp only
      split_ifs with h
      · exact le_of_lt h
      · exact le_refl x

lemma bestArm_le_floorStep (model : ModelState) (t : String) (x : ℚ)
    (lv : EnergyLevel) (b : ℕ)
    (hb : (lookupKey model (t ++ "|" ++ lv.toKey)).bind bestProvenArm =
      some b) :
    (b : ℚ) ≤ floorStep model t x lv := by
  unfold floorStep
  cases hm : lookupKey model (t ++ "|" ++ lv.toKey) with
  | none => rw [hm] at hb; simp at hb
  | some lm =>
    rw [hm] at hb
    simp at hb
    dsimp only
    cases hbb : bestProvenArm lm with
    | none => rw [hbb] at hb; simp at hb
    | some bb =>
      have hbbb : bb = b := by rw [hbb] at hb; simpa using hb
      subst hbbb
      dsimp only
      split_ifs with h
      · exact le_refl _
      · exact not_lt.mp h

lemma le_foldl_floorStep (levels : List EnergyLevel) (model : ModelState)
    (t : String) : ∀ x : ℚ, x ≤ levels.foldl (floorStep model t) x := by
  induction levels with
  | nil => intro x; exact le_refl x
  | cons l ls ih =>
    intro x
    rw [List.foldl_cons]
    exact le_trans (le_floorStep model t x l) (ih _)

lemma bestArm_le_foldl_floorStep (levels : List EnergyLevel)
    (model : ModelState) (t : String) (lv : EnergyLevel) (b : ℕ)
    (hlv : lv ∈ levels)
    (hb : (lookupKey model (t ++ "|" ++ lv.toKey)).bind bestProvenArm =
      some b) :
    ∀ x : ℚ, (b : ℚ) ≤ levels.foldl (floorStep model t) x := by
  induction levels with
  | nil => simp at hlv
  | cons l ls ih =>
    intro x
    rw [List.foldl_cons]
    rcases List.mem_cons.mp hlv with h | h
    · subst h
      exact le_trans (bestArm_le_floorStep model t x lv b hb)
        (le_foldl_floorStep ls model t _)
    · exact ih h _

lemma bestArm_le_crossEnergyFloor (model : ModelState) (t : String)
    (e lv : EnergyLevel) (b : ℕ) (x : ℚ) (hlv : lv ∈ lowerEnergyLevels e)
    (hb : (lookupKey model (t ++ "|" ++ lv.toKey)).bind bestProvenArm =
      some b) :
    (b : ℚ) ≤ crossEnergyFloor model t e x := by
  unfold crossEnergyFloor
  exact bestArm_le_foldl_floorStep (lowerEnergyLevels e) model t lv b hlv hb x

lemma min30_le_clampValue (bb : Bool) (z : FocusZone) (x y : ℚ)
    (hyx : y ≤ x) :
    min y 30 ≤ clampValue bb (getZoneActions z []) x := by
  cases bb
  · cases z
    · rw [clampValue_false_eq, listMin_short, listMax_short]
      exact le_trans
        (le_min (le_trans (min_le_left _ _) hyx)
          (le_trans (min_le_right _ _) (by norm_num)))
        (le_max_right _ _)
    · rw [clampValue_false_eq, listMin_long, listMax_long]
      exact le_trans
        (le_min (le_trans (min_le_left _ _) hyx)
          (le_trans (min_le_right _ _) (by norm_num)))
        (le_max_right _ _)
    · rw [clampValue_false_eq, listMin_extended, listMax_extended]
      exact le_trans
        (le_min (le_trans (min_le_left _ _) hyx)
          (le_trans (min_le_right _ _) (by norm_num)))
        (le_max_right _ _)
  · rw [clampValue_true_eq]
    exact le_trans
      (le_min (le_trans (min_le_left _ _) hyx)
        (le_trans (min_le_right _ _) (by norm_num)))
      (le_max_right _ _)

/-- Counterexample for C6: at mid energy with a low-energy context whose
single (hence best) proven arm is 60, a cold-start call at heuristic 25
returns 30 — the final clamp into the short zone's action range pulls the
value below the lower-energy proven arm, so the returned value is NOT at
least 60. -/
theorem cross_energy_clamp_cex :
    (getSmartRecommendation (fun _ _ _ => 0) 0 ⟨"t", .mid⟩ 25 [] false
        [("t|low", [(60, ⟨10, 1⟩)])] [] []).1.value = 30 ∧
    (lookupKey [("t|low", [(60, (⟨10, 1⟩ : ModelParameters))])]
        ("t" ++ "|" ++ EnergyLevel.low.toKey)).bind bestProvenArm =
      some 60 ∧
    ¬((60 : ℚ) ≤ 30) := by
  refine ⟨?_, ?_, by norm_num⟩
  · have hk : createContextKey ⟨"t", .mid⟩ = "t|mid" := rfl
    have h1 : ("t|low" : String) ≠ "t|mid" := by decide
    have h2 : ("t" ++ "|" ++ EnergyLevel.low.toKey : String) = "t|low" := rfl
    norm_num [getSmartRecommendation, hk, h1, h2, recommendStep, getZoneData,
      lookupKey, setKey, getCapacityStats, emptyCapacityStats,
      getTotalObservations, detectZone, adjustForCapacity, crossEnergyFloor,
      lowerEnergyLevels, floorStep, clampValue, bestProvenArm, actionParams,
      lookupAction, getZoneActions, sortAsc, insertAsc, dedupFirst,
      ZONE_ACTIONS, listMin, listMax, BOOTSTRAP_THRESHOLD]
  · rfl

/-- Claim C6 (amended): with an empty dynamic-arms list, the returned value
is at least min(b, 30) for the best proven arm b of every strictly lower
energy level with data for the same task (the pre-clamp value is raised to
at least b, and every final action range reaches at least 30); the final
zone clamp may cut the value below b itself, so "at least b" does not
hold. -/
theorem cross_energy_floor_lower_bound (sampleFn : ℕ → ℚ → ℚ → ℚ) (u : ℚ)
    (context : Context) (H : ℚ) (flag : Bool) (model : ModelState)
    (zones : ZoneState) (capacity : CapacityState) (lv : EnergyLevel)
    (b : ℕ) (hlv : lv ∈ lowerEnergyLevels context.energyLevel)
    (hb : (lookupKey model
        (context.taskType ++ "|" ++ lv.toKey)).bind bestProvenArm = some b) :
    min (b : ℚ) 30 ≤
      (getSmartRecommendation sampleFn u context H [] flag model zones
        capacity).1.value := by
  rw [getSmartRecommendation_value_eq]
  obtain ⟨z, hz⟩ := recommendStep_actions_shape sampleFn u context H []
    model
    (getZoneData zones (createContextKey context) context.energyLevel H).2
    (getCapacityStats capacity (createContextKey context))
    (if flag then FocusZone.short
      else (getZoneData zones (createContextKey context)
        context.energyLevel H).1.zone)
  rw [hz]
  exact min30_le_clampValue _ z _ _
    (bestArm_le_crossEnergyFloor model context.taskType context.energyLevel
      lv b _ hlv hb)

/-- Witness for C6 at the clamp counterexample state: the theorem yields
min(60, 30) = 30 as the guaranteed lower bound, attained there. -/
theorem cross_energy_floor_lower_bound_witness :
    EnergyLevel.low ∈ lowerEnergyLevels EnergyLevel.mid ∧
    min ((60 : ℕ) : ℚ) 30 ≤
      (getSmartRecommendation (fun _ _ _ => 0) 0 ⟨"t", .mid⟩ 25 [] false
        [("t|low", [(60, ⟨10, 1⟩)])] [] []).1.value :=
  ⟨by decide,
    cross_energy_floor_lower_bound (fun _ _ _ => 0) 0 ⟨"t", .mid⟩ 25 false
      [("t|low", [(60, ⟨10, 1⟩)])] [] [] EnergyLevel.low 60 (by decide) rfl⟩

-- ===========================================================================
-- Claim C3: what two recorded 60-minute completed sessions produce
-- ===========================================================================

/-- One completed 60-minute session (3600 s focused of a 3600 s plan, 300 s
break) in context ("coding", mid), recorded without accepting a
recommendation. -/
def c3Params : SessionCompletionParams :=
  ⟨.completed, "coding", .mid, 25, 5, false, 3600, 300, 3600⟩

/-- The persisted state after recording one such session from scratch. -/
def c3AfterOne : RLState := completeSession c3Params ⟨[], [], []⟩

/-- The persisted state after recording the session twice. -/
def c3AfterTwo : RLState := completeSession c3Params c3AfterOne

lemma c3AfterOne_eq :
    c3AfterOne =
      ⟨[("coding|mid", [(60, ⟨5/2, 3/2⟩), (70, ⟨5/4, 9/4⟩)]),
          ("coding-break|mid", [(5, ⟨5/2, 3/2⟩)])],
        [("coding|mid", ⟨.extended, 1/5, [60], false⟩)],
        [("coding|mid", ⟨[⟨60, 60, true⟩], 60, 1, .stable⟩)]⟩ := by
  have h1 : ("coding" ++ "|" ++ EnergyLevel.mid.toKey : String) =
    "coding|mid" := rfl
  have h2 : createContextKey ⟨"coding", .mid⟩ = "coding|mid" := rfl
  have h3 : createContextKey ⟨"coding" ++ "-break", .mid⟩ =
    "coding-break|mid" := rfl
  have h4 : ("coding-break|mid" : String) ≠ "coding|mid" := by decide
  have h5 : ("coding|mid" : String) ≠ "coding-break|mid" := by decide
  have ht60 : (60 : ℤ).toNat = 60 := rfl
  have ht5 : (5 : ℤ).toNat = 5 := rfl
  unfold c3AfterOne
  norm_num [completeSession, c3Params, h1, h2, h3, h4, h5, ht60, ht5,
    secondsToMinutes, MIN_SESSION_FOR_SAVE, calculateReward,
    applyCapacityScaling, getCapacityStats, emptyCapacityStats, lookupKey,
    setKey, updateModel, updateCapacityStats, updateZoneData, getZoneData,
    actionParams, lookupAction, setAction, calculateTrend, weightedIndexSum,
    checkZoneTransition, lastFiveAverage, getZoneActions, sortAsc, insertAsc,
    dedupFirst, ZONE_ACTIONS, SPILLOVER_THRESHOLD, SPILLOVER_FACTOR,
    CAPACITY_HISTORY_LIMIT, round_eq, Int.toNat_ofNat, DEFAULT_ALPHA,
    DEFAULT_BETA]

lemma c3AfterTwo_eq :
    c3AfterTwo =
      ⟨[("coding|mid", [(60, ⟨4, 3/2⟩), (70, ⟨3/2, 3⟩)]),
          ("coding-break|mid", [(5, ⟨4, 3/2⟩)])],
        [("coding|mid", ⟨.extended, 2/5, [60, 60], false⟩)],
        [("coding|mid",
          ⟨[⟨60, 60, true⟩, ⟨60, 60, true⟩], 60, 1, .stable⟩)]⟩ := by
  have h1 : ("coding" ++ "|" ++ EnergyLevel.mid.toKey : String) =
    "coding|mid" := rfl
  have h2 : createContextKey ⟨"coding", .mid⟩ = "coding|mid" := rfl
  have h3 : createContextKey ⟨"coding" ++ "-break", .mid⟩ =
    "coding-break|mid" := rfl
  have h4 : ("coding-break|mid" : String) ≠ "coding|mid" := by decide
  have h5 : ("coding|mid" : String) ≠ "coding-break|mid" := by decide
  have ht60 : (60 : ℤ).toNat = 60 := rfl
  have ht5 : (5 : ℤ).toNat = 5 := rfl
  unfold c3AfterTwo
  rw [c3AfterOne_eq]
  norm_num [completeSession, c3Params, h1, h2, h3, h4, h5, ht60, ht5,
    secondsToMinutes, MIN_SESSION_FOR_SAVE, calculateReward,
    applyCapacityScaling, getCapacityStats, emptyCapacityStats, lookupKey,
    setKey, updateModel, updateCapacityStats, updateZoneData, getZoneData,
    actionParams, lookupAction, setAction, calculateTrend, weightedIndexSum,
    checkZoneTransition, lastFiveAverage, getZoneActions, sortAsc, insertAsc,
    dedupFirst, ZONE_ACTIONS, SPILLOVER_THRESHOLD, SPILLOVER_FACTOR,
    CAPACITY_HISTORY_LIMIT, round_eq, Int.toNat_ofNat, DEFAULT_ALPHA,
    DEFAULT_BETA]

/-- Counterexample for C3: after recording the 60-minute completed session
exactly twice, total observations reach exactly 5 (each completed session
adds 1.5 of evidence through the trust multiplier plus 1.0 through
spillover), so the next call runs Thompson sampling over the
capacity-corrected long zone: under a sampler favoring the first arm it
returns 25 with source "learned" — not a value within 5 of 60, and a
random Thompson sample rather than the bootstrap average. -/
theorem two_sessions_thompson_cex :
    (getSmartRecommendation (fun i _ _ => if i = 0 then 1 else 0) 0
        ⟨"coding", .mid⟩ 25 [] false c3AfterTwo.model c3AfterTwo.zones
        c3AfterTwo.capacity).1 = ⟨25, Source.learned⟩ ∧
    ¬((60 - 5 : ℚ) ≤ 25 ∧ (25 : ℚ) ≤ 60 + 5) := by
  constructor
  · rw [c3AfterTwo_eq]
    have h2 : createContextKey ⟨"coding", .mid⟩ = "coding|mid" := rfl
    have h6 : ("coding" ++ "|" ++ EnergyLevel.low.toKey : String) =
      "coding|low" := rfl
    have h7 : ("coding|mid" : String) ≠ "coding|low" := by decide
    have h8 : ("coding-break|mid" : String) ≠ "coding|low" := by decide
    have hne : ([25, 30, 35, 40, 45, 50, 55, 60] : List ℕ) ≠ [] := by decide
    norm_num [getSmartRecommendation, h2, h6, h7, h8, hne, recommendStep,
      getZoneData, lookupKey, setKey, getCapacityStats, emptyCapacityStats,
      getTotalObservations, adjustForCapacity, crossEnergyFloor,
      lowerEnergyLevels, floorStep, clampValue, detectZone, getBestAction,
      getZoneActions, sortAsc, insertAsc, dedupFirst, ZONE_ACTIONS,
      ensureActionParams, lookupAction, setAction, actionParams,
      pickBySample, pickBySampleAux, EARLY_EXPLORATION_THRESHOLD,
      DEFAULT_ALPHA, DEFAULT_BETA, listMin, listMax, BOOTSTRAP_THRESHOLD,
      round_eq, RecOutput.mk.injEq]
  · norm_num

/-- Claim C3 (amended): the bootstrap mirror applies after ONE recorded
60-minute completed session (total observations 2.5 < 5): the next call
returns exactly 60, for every sampler and draw, with source label
"blended" (the label is "learned" only from 5 observations on); after the
second session the observation total is exactly 5, ending the bootstrap
phase. -/
theorem bootstrap_after_one_session :
    (∀ (sampleFn : ℕ → ℚ → ℚ → ℚ) (u : ℚ),
      (getSmartRecommendation sampleFn u ⟨"coding", .mid⟩ 25 [] false
        c3AfterOne.model c3AfterOne.zones c3AfterOne.capacity).1 =
      ⟨60, Source.blended⟩) ∧
    getTotalObservations c3AfterTwo.model "coding|mid" = 5 := by
  constructor
  · intro sampleFn u
    rw [c3AfterOne_eq]
    have h2 : createContextKey ⟨"coding", .mid⟩ = "coding|mid" := rfl
    have h6 : ("coding" ++ "|" ++ EnergyLevel.low.toKey : String) =
      "coding|low" := rfl
    have h7 : ("coding|mid" : String) ≠ "coding|low" := by decide
    have h8 : ("coding-break|mid" : String) ≠ "coding|low" := by decide
    norm_num [getSmartRecommendation, h2, h6, h7, h8, recommendStep,
      getZoneData, lookupKey, setKey, getCapacityStats, emptyCapacityStats,
      getTotalObservations, adjustForCapacity, crossEnergyFloor,
      lowerEnergyLevels, floorStep, clampValue, bootstrapEwma, EWMA_ALPHA,
      DEFAULT_ALPHA, DEFAULT_BETA, detectZone, BOOTSTRAP_THRESHOLD,
      round_eq, RecOutput.mk.injEq]
  · rw [c3AfterTwo_eq]
    norm_num [getTotalObservations, lookupKey, DEFAULT_ALPHA, DEFAULT_BETA]

end Kairos
